import Mathlib

/-!
Verification development for the Bluetooth message receiver/broadcaster
(`config.py`, `utils.py`, `message_broadcaster.py`, `bluetooth_receiver.py`).

Strings are modelled as `List Char` (Python `str` is a sequence of Unicode
code points), byte payloads as `List Nat` (each entry `< 256`).  Python code
that performs I/O is modelled as a pure state transformation over explicit
record states; a `try/except` wrapper that swallows an exception is modelled
by a fault flag that, when set, leaves the corresponding part of the state
unchanged instead of propagating anything.
-/

namespace RbPiBt

/-! ### Python `str.strip` (no arguments)

`str.strip()` removes the characters `c` with `c.isspace()` true from both
ends of the string.  `pyIsSpace` lists exactly the code points for which
Python's `str.isspace` holds. -/

def pyIsSpace (c : Char) : Bool :=
  decide (0x09 ≤ c.toNat ∧ c.toNat ≤ 0x0d) ||
  decide (0x1c ≤ c.toNat ∧ c.toNat ≤ 0x1f) ||
  decide (c.toNat = 0x20) || decide (c.toNat = 0x85) || decide (c.toNat = 0xa0) ||
  decide (c.toNat = 0x1680) ||
  decide (0x2000 ≤ c.toNat ∧ c.toNat ≤ 0x200a) ||
  decide (c.toNat = 0x2028) || decide (c.toNat = 0x2029) ||
  decide (c.toNat = 0x202f) || decide (c.toNat = 0x205f) || decide (c.toNat = 0x3000)

/-- One step of right stripping: prepend `a` to the already-stripped tail
`r`, dropping `a` as well when the tail vanished and `a` satisfies `p`. -/
def stripRightCons (p : Char → Bool) (a : Char) (r : List Char) : List Char :=
  match r with
  | [] => if p a then [] else [a]
  | r => a :: r

/-- Remove the longest run of characters satisfying `p` from the right end. -/
def stripRightWhile (p : Char → Bool) : List Char → List Char
  | [] => []
  | a :: t => stripRightCons p a (stripRightWhile p t)

/-- Python `s.strip()`: trim `pyIsSpace` characters from both ends. -/
def pyStrip (s : List Char) : List Char :=
  stripRightWhile pyIsSpace (s.dropWhile pyIsSpace)

/-! ### `MessageUtils.clean_message` (utils.py lines 244-259)

The pre-compiled pattern `[\x00-\x08\x0b-\x0c\x0e-\x1f\x7f-\x9f]` matches
every C0/C1 control character except `\t` (0x09), `\n` (0x0a), `\r` (0x0d);
`clean_message` deletes those matches and then strips whitespace. -/

def isStrippedControl (c : Char) : Bool :=
  decide (c.toNat ≤ 0x08) ||
  decide (c.toNat = 0x0b) || decide (c.toNat = 0x0c) ||
  decide (0x0e ≤ c.toNat ∧ c.toNat ≤ 0x1f) ||
  decide (0x7f ≤ c.toNat ∧ c.toNat ≤ 0x9f)

def clean_message (message : List Char) : List Char :=
  if message = [] then []
  else pyStrip (message.filter (fun c => !isStrippedControl c))

/-! ### `Config` message-filter settings and `Config.validate_message`
(config.py lines 46-49 and 82-94) -/

def IGNORE_EMPTY_MESSAGES : Bool := true
def MIN_MESSAGE_LENGTH : Nat := 1
def MAX_MESSAGE_LENGTH : Nat := 1000
def MAX_RECONNECT_ATTEMPTS : Nat := 5
def RECONNECT_DELAY : Nat := 5

/-- `Config.validate_message`: reject when the whitespace-stripped message is
empty (with `IGNORE_EMPTY_MESSAGES` on), or when its raw length falls outside
`[MIN_MESSAGE_LENGTH, MAX_MESSAGE_LENGTH]`. -/
def validate_message (message : List Char) : Bool :=
  if IGNORE_EMPTY_MESSAGES && (pyStrip message).isEmpty then false
  else if message.length < MIN_MESSAGE_LENGTH then false
  else if MAX_MESSAGE_LENGTH < message.length then false
  else true

/-! ### UTF-8 decoding with `errors='ignore'`

`_handle_client` first tries `data.decode('utf-8')` and on
`UnicodeDecodeError` falls back to `data.decode('utf-8', errors='ignore')`;
on valid input the two agree, so the composite equals the lossy decode.
The lossy decode is modelled byte-accurately for well-formed sequences
(including the overlong/surrogate/range restrictions CPython enforces);
a malformed sequence is skipped one byte at a time. -/

def isCont (n : Nat) : Bool := decide (0x80 ≤ n ∧ n ≤ 0xbf)

/-- Decode one scalar value starting at lead byte `b` with the following
bytes `rest`; returns the decoded character (if the sequence is well formed)
and how many bytes of `rest` were consumed. -/
def utf8Step (b : Nat) (rest : List Nat) : Option Char × Nat :=
  if b < 0x80 then
    (some (Char.ofNat b), 0)
  else if 0xc2 ≤ b ∧ b ≤ 0xdf then
    match rest with
    | c1 :: _ =>
      if isCont c1 then
        (some (Char.ofNat ((b - 0xc0) * 0x40 + (c1 - 0x80))), 1)
      else (none, 0)
    | [] => (none, 0)
  else if 0xe0 ≤ b ∧ b ≤ 0xef then
    match rest with
    | c1 :: c2 :: _ =>
      if (if b = 0xe0 then 0xa0 else 0x80) ≤ c1 ∧
         c1 ≤ (if b = 0xed then 0x9f else 0xbf) ∧ isCont c2 then
        (some (Char.ofNat ((b - 0xe0) * 0x1000 + (c1 - 0x80) * 0x40 + (c2 - 0x80))), 2)
      else (none, 0)
    | _ => (none, 0)
  else if 0xf0 ≤ b ∧ b ≤ 0xf4 then
    match rest with
    | c1 :: c2 :: c3 :: _ =>
      if (if b = 0xf0 then 0x90 else 0x80) ≤ c1 ∧
         c1 ≤ (if b = 0xf4 then 0x8f else 0xbf) ∧ isCont c2 ∧ isCont c3 then
        (some (Char.ofNat ((b - 0xf0) * 0x40000 + (c1 - 0x80) * 0x1000 +
                 (c2 - 0x80) * 0x40 + (c3 - 0x80))), 3)
      else (none, 0)
    | _ => (none, 0)
  else (none, 0)

/-- Main decode loop; the fuel argument (initially the input length) makes
the recursion structural, and is sufficient because every iteration consumes
at least the lead byte. -/
def decodeLoop : Nat → List Nat → List Char
  | 0, _ => []
  | _ + 1, [] => []
  | fuel + 1, b :: rest =>
    let st := utf8Step b rest
    (match st.1 with | some c => [c] | none => []) ++ decodeLoop fuel (rest.drop st.2)

def decodeUtf8Ignore (data : List Nat) : List Char :=
  decodeLoop data.length data

/-- The normalization performed by `BluetoothReceiver._handle_client`
(lines 138-144): decode (lossy on failure) and strip whitespace. -/
def receiverDecode (data : List Nat) : List Char :=
  pyStrip (decodeUtf8Ignore data)

/-! ### `MessageBroadcaster` (message_broadcaster.py)

The four `ENABLE_*` flags of `Config` form the sink configuration; the
observable effects of the four sinks are recorded in `BState`.  Each
`_broadcast_to_*` helper wraps its body in `try/except` and logs a failure
without re-raising; a failure of sink X is modelled by the corresponding
fault flag, under which the sink's recorded output is left unchanged (and,
as in the code, nothing propagates to the caller). -/

structure SinkConfig where
  enableConsole : Bool
  enableAudio : Bool
  enableDisplay : Bool
  enableFile : Bool

structure Faults where
  consoleFault : Bool
  speechFault : Bool
  displayFault : Bool
  fileFault : Bool

structure BState where
  consoleOut : List (List Char)
  messageLog : List (List Char)
  systemLog : List (List Char)
  spoken : List (List Char)
  notified : List (List Char)
  isAudioPlaying : Bool

def sepTok : List Char := " | ".toList

/-- `MessageUtils.format_message_for_log` (the `datetime.now().isoformat()`
timestamp is passed in explicitly). -/
def format_message_for_log (ts message : List Char) (sender : Option (List Char))
    (eventType : List Char) : List Char :=
  match sender with
  | some s => ts ++ sepTok ++ eventType ++ sepTok ++ s ++ sepTok ++ message
  | none => ts ++ sepTok ++ eventType ++ sepTok ++ message

/-- `_broadcast_to_console`: prints a bordered block containing the message;
we record the message text that was printed. -/
def broadcast_to_console (f : Faults) (message : List Char) (st : BState) : BState :=
  if f.consoleFault then st
  else { st with consoleOut := st.consoleOut ++ [message] }

/-- The TTS text built inside `speak_message`:
`message[:200] + "... message truncated" if len(message) > 200 else message`. -/
def speech_text (message : List Char) : List Char :=
  if 200 < message.length then message.take 200 ++ "... message truncated".toList
  else message

/-- `_broadcast_to_audio`: skipped while `is_audio_playing` is set; otherwise
the flag is set, the spawned thread runs `espeak` (here modelled to
completion), and the `finally` clause resets the flag whether or not the
subprocess failed or timed out. -/
def broadcast_to_audio (f : Faults) (message : List Char) (st : BState) : BState :=
  if st.isAudioPlaying then st
  else if f.speechFault then { st with isAudioPlaying := false }
  else { st with spoken := st.spoken ++ [speech_text message], isAudioPlaying := false }

/-- The text shown by `_broadcast_to_display`:
`message[:100] + "..." if len(message) > 100 else message`. -/
def display_text (message : List Char) : List Char :=
  if 100 < message.length then message.take 100 ++ "...".toList
  else message

/-- `_broadcast_to_display`: invokes `notify-send`; failure is logged only. -/
def broadcast_to_display (f : Faults) (message : List Char) (st : BState) : BState :=
  if f.displayFault then st
  else { st with notified := st.notified ++ [display_text message] }

/-- `_broadcast_to_file`: appends one formatted line to the daily
`messages_YYYYMMDD.log`; failure is logged only. -/
def broadcast_to_file (f : Faults) (ts message : List Char)
    (sender : Option (List Char)) (st : BState) : BState :=
  if f.fileFault then st
  else { st with messageLog :=
          st.messageLog ++ [format_message_for_log ts message sender "MESSAGE".toList] }

/-- `MessageBroadcaster.broadcast_message` (lines 39-57): return immediately
when the raw message is empty or `Config.validate_message` rejects it;
otherwise clean it and hand the cleaned text to every enabled sink in the
fixed order console, audio, display, file. -/
def broadcast_message (cfg : SinkConfig) (f : Faults) (ts message : List Char)
    (sender : Option (List Char)) (st : BState) : BState :=
  if message = [] ∨ validate_message message = false then st
  else
    let cleaned := clean_message message
    let st1 := if cfg.enableConsole then broadcast_to_console f cleaned st else st
    let st2 := if cfg.enableAudio then broadcast_to_audio f cleaned st1 else st1
    let st3 := if cfg.enableDisplay then broadcast_to_display f cleaned st2 else st2
    if cfg.enableFile then broadcast_to_file f ts cleaned sender st3 else st3

/-- `MessageBroadcaster.broadcast_system_event` (lines 152-181): build
`"System Event: <event_type>[ - <details>]"`, print it when console output is
enabled and append a formatted line to the daily `system_YYYYMMDD.log` when
file logging is enabled.  It consults no other state. -/
def broadcast_system_event (cfg : SinkConfig) (ts eventType : List Char)
    (details : Option (List Char)) (st : BState) : BState :=
  let message := "System Event: ".toList ++ eventType ++
    (match details with | some d => " - ".toList ++ d | none => [])
  let st1 := if cfg.enableConsole then { st with consoleOut := st.consoleOut ++ [message] }
             else st
  if cfg.enableFile then
    { st1 with systemLog := st1.systemLog ++ [format_message_for_log ts message none eventType] }
  else st1

/-! ### `BluetoothReceiver.stop` (bluetooth_receiver.py lines 196-214)

`stop` sets `is_running = False`, closes the client and server sockets with
any close error swallowed, and then emits the `SERVICE_STOPPED` system event
unconditionally. -/

structure RState where
  is_running : Bool
  serverOpen : Bool
  clientOpen : Bool
  bstate : BState

def stop (cfg : SinkConfig) (ts : List Char) (r : RState) : RState :=
  { is_running := false
    serverOpen := false
    clientOpen := false
    bstate := broadcast_system_event cfg ts "SERVICE_STOPPED".toList
      (some "Bluetooth receiver stopped".toList) r.bstate }

/-! ### Accept-and-session loop (`_start_server` / `_handle_client`)

A small-step machine over the control points of the sequential loop.  The
environment supplies the events: an accepted connection, a received frame, a
graceful peer disconnect (zero-length read), a transport error during the
session, a transport error while accepting, or the shutdown signal.
`devices` models the `connected_devices` dict as an association list;
`events` records the system events emitted via the broadcaster; `sleeps`
records every `time.sleep` performed by the loop; `errLogs` counts logged
transport errors. -/

inductive Phase where
  | accepting
  | inSession (addr : List Char)
  | stopped
deriving DecidableEq

inductive Ev where
  | connect (addr : List Char)
  | recv (data : List Nat)
  | disconnect
  | sessionError
  | acceptError
  | shutdown

structure SysState where
  running : Bool
  phase : Phase
  devices : List (List Char × Nat)
  events : List (List Char)
  sleeps : List Nat
  errLogs : Nat
deriving DecidableEq

/-- State after a successful `start()`: the running flag is set,
`SERVICE_STARTED` has been emitted, and the loop is about to accept. -/
def initSysState : SysState :=
  { running := true
    phase := .accepting
    devices := []
    events := ["SERVICE_STARTED".toList]
    sleeps := []
    errLogs := 0 }

/-- The `finally` block of `_handle_client` (lines 167-172): emit
`CONNECTION_CLOSED` and delete the session's entry. -/
def sessionCleanup (addr : List Char) (s : SysState) : SysState :=
  { s with devices := s.devices.filter (fun p => !(p.1 == addr))
           events := s.events ++ ["CONNECTION_CLOSED".toList] }

/-- The effect of `stop()` on the loop state. -/
def stopSys (s : SysState) : SysState :=
  { s with running := false
           phase := .stopped
           events := s.events ++ ["SERVICE_STOPPED".toList] }

def step (s : SysState) (e : Ev) : SysState :=
  match s.phase, e with
  | .accepting, .connect addr =>
    -- loop iteration: WAITING_CONNECTION, accept, CONNECTION_ESTABLISHED,
    -- then `_handle_client` registers the session with a zero counter
    if s.running then
      { s with phase := .inSession addr
               devices := (addr, 0) :: s.devices.filter (fun p => !(p.1 == addr))
               events := s.events ++
                 ["WAITING_CONNECTION".toList, "CONNECTION_ESTABLISHED".toList] }
    else { s with phase := .stopped }
  | .accepting, .acceptError =>
    -- `except` in `_start_server`: log the error, `time.sleep(5)`, loop again
    if s.running then { s with errLogs := s.errLogs + 1, sleeps := s.sleeps ++ [5] }
    else { s with phase := .stopped }
  | .accepting, .shutdown => stopSys s
  | .inSession addr, .recv data =>
    -- one iteration of the read loop on non-empty data
    if s.running then
      let message := receiverDecode data
      if message.isEmpty then s
      else { s with devices :=
              s.devices.map (fun p => if p.1 == addr then (p.1, p.2 + 1) else p) }
    else sessionCleanup addr { s with phase := .stopped }
  | .inSession addr, .disconnect =>
    -- zero-length read: break, run cleanup, return to the accept loop
    { (sessionCleanup addr s) with phase := if s.running then .accepting else .stopped }
  | .inSession addr, .sessionError =>
    -- `except` inside `_handle_client`: log, break, cleanup; the accept loop
    -- sees no exception and re-enters accept with no delay
    { (sessionCleanup addr { s with errLogs := s.errLogs + 1 }) with
        phase := if s.running then .accepting else .stopped }
  | .inSession addr, .shutdown =>
    -- signal handler runs stop(); the session loop then exits through its
    -- cleanup path
    sessionCleanup addr (stopSys s)
  | .stopped, _ => s
  | _, _ => s

inductive Reachable : SysState → Prop where
  | init : Reachable initSysState
  | step (s : SysState) (e : Ev) : Reachable s → Reachable (step s e)

/-! ### Helper lemmas about the stripping primitives -/

theorem mem_of_mem_dropWhile (p : Char → Bool) (l : List Char) (c : Char)
    (h : c ∈ l.dropWhile p) : c ∈ l := by
  induction l with
  | nil => simp at h
  | cons a t ih =>
    by_cases hp : p a
    · rw [List.dropWhile_cons, if_pos hp] at h
      exact List.mem_cons_of_mem _ (ih h)
    · rwa [List.dropWhile_cons, if_neg hp] at h

theorem length_dropWhile_le' (p : Char → Bool) (l : List Char) :
    (l.dropWhile p).length ≤ l.length := by
  induction l with
  | nil => simp
  | cons a t ih =>
    by_cases hp : p a
    · rw [List.dropWhile_cons, if_pos hp]
      exact le_trans ih (Nat.le_succ _)
    · rw [List.dropWhile_cons, if_neg hp]

theorem dropWhile_head_false (p : Char → Bool) (l : List Char) (a : Char) (t : List Char)
    (h : l.dropWhile p = a :: t) : p a = false := by
  induction l with
  | nil => simp at h
  | cons b l ih =>
    by_cases hp : p b
    · rw [List.dropWhile_cons, if_pos hp] at h
      exact ih h
    · rw [List.dropWhile_cons, if_neg hp] at h
      cases h
      simpa using hp

theorem stripRightWhile_nil (p : Char → Bool) : stripRightWhile p [] = [] := rfl

theorem stripRightWhile_cons (p : Char → Bool) (a : Char) (t : List Char) :
    stripRightWhile p (a :: t) = stripRightCons p a (stripRightWhile p t) := rfl

theorem stripRightCons_nil (p : Char → Bool) (a : Char) :
    stripRightCons p a [] = if p a then [] else [a] := rfl

theorem stripRightCons_cons (p : Char → Bool) (a b : Char) (r : List Char) :
    stripRightCons p a (b :: r) = a :: b :: r := rfl

theorem stripRightWhile_head (p : Char → Bool) (a : Char) (t : List Char) :
    stripRightWhile p (a :: t) = [] ∨ ∃ r, stripRightWhile p (a :: t) = a :: r := by
  cases hs : stripRightWhile p t with
  | nil =>
    by_cases hp : p a
    · left; simp [stripRightWhile_cons, hs, stripRightCons_nil, hp]
    · right; exact ⟨[], by simp [stripRightWhile_cons, hs, stripRightCons_nil, hp]⟩
  | cons b r =>
    right; exact ⟨b :: r, by rw [stripRightWhile_cons, hs, stripRightCons_cons]⟩

theorem stripRightWhile_idem (p : Char → Bool) (l : List Char) :
    stripRightWhile p (stripRightWhile p l) = stripRightWhile p l := by
  induction l with
  | nil => rfl
  | cons a t ih =>
    cases hs : stripRightWhile p t with
    | nil =>
      by_cases hp : p a <;>
        simp [stripRightWhile_cons, stripRightWhile_nil, stripRightCons_nil, hs, hp]
    | cons b r =>
      rw [hs] at ih
      rw [stripRightWhile_cons, hs, stripRightCons_cons, stripRightWhile_cons, ih,
        stripRightCons_cons]

theorem mem_of_mem_stripRightWhile (p : Char → Bool) (l : List Char) (c : Char)
    (h : c ∈ stripRightWhile p l) : c ∈ l := by
  induction l with
  | nil => simp [stripRightWhile_nil] at h
  | cons a t ih =>
    cases hs : stripRightWhile p t with
    | nil =>
      by_cases hp : p a
      · simp [stripRightWhile_cons, hs, stripRightCons_nil, hp] at h
      · simp [stripRightWhile_cons, hs, stripRightCons_nil, hp] at h
        simp [h]
    | cons b r =>
      rw [stripRightWhile_cons, hs, stripRightCons_cons] at h
      rcases List.mem_cons.mp h with rfl | h
      · simp
      · have hm : c ∈ t := ih (by rw [hs]; exact h)
        simp [hm]

theorem length_stripRightWhile_le (p : Char → Bool) (l : List Char) :
    (stripRightWhile p l).length ≤ l.length := by
  induction l with
  | nil => simp [stripRightWhile_nil]
  | cons a t ih =>
    cases hs : stripRightWhile p t with
    | nil =>
      by_cases hp : p a <;>
        simp [stripRightWhile_cons, hs, stripRightCons_nil, hp]
    | cons b r =>
      rw [hs] at ih
      rw [stripRightWhile_cons, hs, stripRightCons_cons]
      simpa using ih

theorem pyStrip_idem (l : List Char) : pyStrip (pyStrip l) = pyStrip l := by
  unfold pyStrip
  have hdw : (stripRightWhile pyIsSpace (l.dropWhile pyIsSpace)).dropWhile pyIsSpace
      = stripRightWhile pyIsSpace (l.dropWhile pyIsSpace) := by
    cases hm : l.dropWhile pyIsSpace with
    | nil => simp [stripRightWhile_nil]
    | cons a t =>
      have hpa : pyIsSpace a = false := dropWhile_head_false _ _ _ _ hm
      rcases stripRightWhile_head pyIsSpace a t with h | ⟨r, h⟩
      · simp [h]
      · simp [h, List.dropWhile_cons, hpa]
  rw [hdw, stripRightWhile_idem]

theorem mem_of_mem_pyStrip (l : List Char) (c : Char) (h : c ∈ pyStrip l) : c ∈ l :=
  mem_of_mem_dropWhile _ _ _ (mem_of_mem_stripRightWhile _ _ _ h)

theorem length_pyStrip_le (l : List Char) : (pyStrip l).length ≤ l.length :=
  le_trans (length_stripRightWhile_le _ _) (length_dropWhile_le' _ _)

/-! ### Helper lemmas about `clean_message` and `validate_message` -/

theorem length_clean_message_le (m : List Char) :
    (clean_message m).length ≤ m.length := by
  unfold clean_message
  split_ifs with h
  · simp [h]
  · exact le_trans (length_pyStrip_le _) (List.length_filter_le _ _)

theorem validate_message_length (m : List Char) (h : validate_message m = true) :
    MIN_MESSAGE_LENGTH ≤ m.length ∧ m.length ≤ MAX_MESSAGE_LENGTH := by
  unfold validate_message at h
  split_ifs at h with h1 h2 h3
  omega

theorem clean_message_ne_nil (x : List Char) (h : x ≠ []) :
    clean_message x = pyStrip (x.filter (fun c => !isStrippedControl c)) := by
  unfold clean_message
  rw [if_neg h]

theorem mem_clean_message_not_control (m : List Char) (c : Char)
    (h : c ∈ clean_message m) : isStrippedControl c = false := by
  unfold clean_message at h
  split_ifs at h with hm
  · simp at h
  · have := mem_of_mem_pyStrip _ _ h
    have := (List.mem_filter.mp this).2
    simpa using this

theorem not_control_class (c : Char) (h : isStrippedControl c = false)
    (hr : c.toNat ≤ 0x1f ∨ (0x7f ≤ c.toNat ∧ c.toNat ≤ 0x9f)) :
    c.toNat = 0x09 ∨ c.toNat = 0x0a ∨ c.toNat = 0x0d := by
  simp only [isStrippedControl, Bool.or_eq_false_iff, decide_eq_false_iff_not] at h
  omega

/-! ### Helper lemmas about the broadcaster -/

theorem consoleOut_broadcast_to_audio (f : Faults) (m : List Char) (st : BState) :
    (broadcast_to_audio f m st).consoleOut = st.consoleOut := by
  unfold broadcast_to_audio; split_ifs <;> rfl

theorem consoleOut_broadcast_to_display (f : Faults) (m : List Char) (st : BState) :
    (broadcast_to_display f m st).consoleOut = st.consoleOut := by
  unfold broadcast_to_display; split_ifs <;> rfl

theorem consoleOut_broadcast_to_file (f : Faults) (ts m : List Char)
    (sender : Option (List Char)) (st : BState) :
    (broadcast_to_file f ts m sender st).consoleOut = st.consoleOut := by
  unfold broadcast_to_file; split_ifs <;> rfl

theorem messageLog_broadcast_to_console (f : Faults) (m : List Char) (st : BState) :
    (broadcast_to_console f m st).messageLog = st.messageLog := by
  unfold broadcast_to_console; split_ifs <;> rfl

theorem messageLog_broadcast_to_audio (f : Faults) (m : List Char) (st : BState) :
    (broadcast_to_audio f m st).messageLog = st.messageLog := by
  unfold broadcast_to_audio; split_ifs <;> rfl

theorem messageLog_broadcast_to_display (f : Faults) (m : List Char) (st : BState) :
    (broadcast_to_display f m st).messageLog = st.messageLog := by
  unfold broadcast_to_display; split_ifs <;> rfl

/-- A raw message that is empty or rejected by `validate_message` is not
dispatched: the broadcaster state is untouched. -/
theorem broadcast_message_rejected (cfg : SinkConfig) (f : Faults) (ts message : List Char)
    (sender : Option (List Char)) (st : BState)
    (h : message = [] ∨ validate_message message = false) :
    broadcast_message cfg f ts message sender st = st := by
  unfold broadcast_message
  rw [if_pos h]

/-- On an accepted message the console sink records exactly the cleaned text
(when enabled and not failing), regardless of the other sinks' faults. -/
theorem broadcast_message_consoleOut (cfg : SinkConfig) (f : Faults) (ts message : List Char)
    (sender : Option (List Char)) (st : BState)
    (hm : message ≠ []) (hv : validate_message message = true) :
    (broadcast_message cfg f ts message sender st).consoleOut =
      st.consoleOut ++
        (if cfg.enableConsole && !f.consoleFault then [clean_message message] else []) := by
  unfold broadcast_message
  rw [if_neg (by simp [hm, hv])]
  cases hef : cfg.enableFile <;> cases hed : cfg.enableDisplay <;>
    cases hea : cfg.enableAudio <;> cases hec : cfg.enableConsole <;>
      cases hfc : f.consoleFault <;>
        simp [hef, hed, hea, hec, hfc, consoleOut_broadcast_to_audio,
          consoleOut_broadcast_to_display, consoleOut_broadcast_to_file,
          broadcast_to_console]

/-- On an accepted message the file sink appends exactly the formatted
cleaned text (when enabled and not failing), regardless of the other sinks'
faults. -/
theorem broadcast_message_messageLog (cfg : SinkConfig) (f : Faults) (ts message : List Char)
    (sender : Option (List Char)) (st : BState)
    (hm : message ≠ []) (hv : validate_message message = true) :
    (broadcast_message cfg f ts message sender st).messageLog =
      st.messageLog ++
        (if cfg.enableFile && !f.fileFault then
          [format_message_for_log ts (clean_message message) sender "MESSAGE".toList]
         else []) := by
  unfold broadcast_message
  rw [if_neg (by simp [hm, hv])]
  cases hef : cfg.enableFile <;> cases hed : cfg.enableDisplay <;>
    cases hea : cfg.enableAudio <;> cases hec : cfg.enableConsole <;>
      cases hff : f.fileFault <;>
        simp [hef, hed, hea, hec, hff, messageLog_broadcast_to_console,
          messageLog_broadcast_to_audio, messageLog_broadcast_to_display,
          broadcast_to_file]

/-! ### Helper lemmas about the accept-and-session loop -/

/-- The session-map invariant: while a session for `a` is active the map is
exactly the singleton for `a`; in every other phase it is empty. -/
def SessionInv (s : SysState) : Prop :=
  match s.phase with
  | .inSession a => ∃ n, s.devices = [(a, n)]
  | _ => s.devices = []

theorem sessionInv_step (s : SysState) (e : Ev) (h : SessionInv s) :
    SessionInv (step s e) := by
  rcases s with ⟨run, ph, dev, evs, sl, el⟩
  cases ph with
  | accepting =>
    simp only [SessionInv] at h
    subst h
    cases e <;> cases run <;> simp [step, SessionInv, stopSys]
  | inSession a =>
    simp only [SessionInv] at h
    obtain ⟨n, rfl⟩ := h
    cases e with
    | recv data =>
      cases run
      · simp [step, SessionInv, sessionCleanup]
      · by_cases hempty : (receiverDecode data).isEmpty
        · have hstep : step ⟨true, .inSession a, [(a, n)], evs, sl, el⟩ (.recv data)
              = ⟨true, .inSession a, [(a, n)], evs, sl, el⟩ := by
            simp [step, hempty]
          rw [hstep]
          exact ⟨n, rfl⟩
        · have hstep : step ⟨true, .inSession a, [(a, n)], evs, sl, el⟩ (.recv data)
              = ⟨true, .inSession a, [(a, n + 1)], evs, sl, el⟩ := by
            simp [step, hempty]
          rw [hstep]
          exact ⟨n + 1, rfl⟩
    | _ => cases run <;> simp [step, SessionInv, sessionCleanup, stopSys]
  | stopped =>
    simp only [SessionInv] at h
    subst h
    cases e <;> simp [step, SessionInv]

theorem reachable_sessionInv (s : SysState) (h : Reachable s) : SessionInv s := by
  induction h with
  | init => exact rfl
  | step s e _ ih => exact sessionInv_step s e ih

/-- Iterated accept-phase transport errors. -/
def acceptErrIter : Nat → SysState → SysState
  | 0, s => s
  | n + 1, s => acceptErrIter n (step s .acceptError)

theorem step_acceptError_eq (dev : List (List Char × Nat)) (evs : List (List Char))
    (sl : List Nat) (el : Nat) :
    step ⟨true, .accepting, dev, evs, sl, el⟩ .acceptError
      = ⟨true, .accepting, dev, evs, sl ++ [5], el + 1⟩ := by
  simp [step]

theorem acceptErrIter_spec (n : Nat) (dev : List (List Char × Nat))
    (evs : List (List Char)) (sl : List Nat) (el : Nat) :
    acceptErrIter n ⟨true, .accepting, dev, evs, sl, el⟩
      = ⟨true, .accepting, dev, evs, sl ++ List.replicate n 5, el + n⟩ := by
  induction n generalizing sl el with
  | zero => simp [acceptErrIter]
  | succ n ih =>
    show acceptErrIter n (step ⟨true, .accepting, dev, evs, sl, el⟩ .acceptError) = _
    rw [step_acceptError_eq, ih]
    simp [List.replicate_succ, List.append_assoc]
    omega

/-! ### Concrete instances used by witnesses and counterexamples -/

def cfgAll : SinkConfig := ⟨true, true, true, true⟩

def noFaults : Faults := ⟨false, false, false, false⟩

/-- Environment in which the speech sink fails (or times out) while every
other sink works. -/
def speechFailing : Faults := ⟨false, true, false, false⟩

def emptyBState : BState := ⟨[], [], [], [], [], false⟩

/-- A receiver that has started successfully and is waiting to accept. -/
def runningRState : RState := ⟨true, true, false, emptyBState⟩

/-! ## Claim C1 -/

/-- C1, as stated, is false on the code: `broadcast_message` validates the
RAW message (`Config.validate_message(message)`) and only afterwards cleans
it, so a raw message consisting of one NUL character — not whitespace, hence
not blank for `str.strip`, of length 1 — passes validation, yet its cleaned
form is the empty string, and that empty string is delivered to the enabled
sinks (here recorded by the console sink). -/
theorem c1_counterexample :
    validate_message [Char.ofNat 0x00] = true ∧
    clean_message [Char.ofNat 0x00] = [] ∧
    (broadcast_message cfgAll noFaults [] [Char.ofNat 0x00] none emptyBState).consoleOut
      = [[]] := by decide

/-- C1 (amended): `broadcast_message` dispatches to the sinks only when the
raw message is non-empty and passes `Config.validate_message` (raw length in
`[MIN_MESSAGE_LENGTH, MAX_MESSAGE_LENGTH]`, some non-whitespace character);
the text actually delivered is `clean_message` of the raw message, whose
length is at most `MAX_MESSAGE_LENGTH` — but it can be empty (below
`MIN_MESSAGE_LENGTH`) when the raw message consists only of control
characters, since validation never sees the cleaned form. -/
theorem c1_dispatch_guard (cfg : SinkConfig) (f : Faults) (ts message : List Char)
    (sender : Option (List Char)) (st : BState) :
    (message = [] ∨ validate_message message = false →
      broadcast_message cfg f ts message sender st = st) ∧
    (message ≠ [] → validate_message message = true →
      (clean_message message).length ≤ MAX_MESSAGE_LENGTH ∧
      (broadcast_message cfg f ts message sender st).consoleOut =
        st.consoleOut ++
          (if cfg.enableConsole && !f.consoleFault then [clean_message message] else [])) := by
  constructor
  · exact broadcast_message_rejected cfg f ts message sender st
  · intro hm hv
    exact ⟨le_trans (length_clean_message_le message) (validate_message_length message hv).2,
      broadcast_message_consoleOut cfg f ts message sender st hm hv⟩

theorem c1_dispatch_guard_witness :
    ("Hi".toList ≠ [] ∧ validate_message "Hi".toList = true) ∧
    ((clean_message "Hi".toList).length ≤ MAX_MESSAGE_LENGTH ∧
      (broadcast_message cfgAll noFaults [] "Hi".toList none emptyBState).consoleOut =
        emptyBState.consoleOut ++
          (if cfgAll.enableConsole && !noFaults.consoleFault then [clean_message "Hi".toList]
           else [])) :=
  ⟨⟨by decide, by decide⟩,
    (c1_dispatch_guard cfgAll noFaults [] "Hi".toList none emptyBState).2
      (by decide) (by decide)⟩

/-! ## Claim C2 -/

/-- C2, as stated, is false on the code: for the client bytes `[0x01]` the
pipeline (decode, strip, validate-raw, clean) neither rejects the message
nor produces a string within `[minLength, maxLength]` — the raw decoded
string `"\x01"` passes validation, and the dispatched cleaned string is
empty, of length `0 < MIN_MESSAGE_LENGTH`. -/
theorem c2_counterexample :
    validate_message (receiverDecode [0x01]) = true ∧
    (clean_message (receiverDecode [0x01])).length < MIN_MESSAGE_LENGTH ∧
    (broadcast_message cfgAll noFaults [] (receiverDecode [0x01]) none emptyBState).consoleOut
      = [[]] := by decide

/-- C2 (amended): the normalization pipeline is a total function of the
received bytes (the lossy UTF-8 fallback means no byte input raises), and
whenever the decoded message is accepted by validation, the dispatched
cleaned text has length at most `MAX_MESSAGE_LENGTH` and contains no control
character (C0 or C1 range) other than tab (0x09), newline (0x0a) and
carriage return (0x0d); its length may however fall below
`MIN_MESSAGE_LENGTH`, since the length bounds are checked on the raw decoded
string before cleaning. -/
theorem c2_normalize_bounds (data : List Nat)
    (hv : validate_message (receiverDecode data) = true) :
    (clean_message (receiverDecode data)).length ≤ MAX_MESSAGE_LENGTH ∧
    ∀ c ∈ clean_message (receiverDecode data),
      c.toNat ≤ 0x1f ∨ (0x7f ≤ c.toNat ∧ c.toNat ≤ 0x9f) →
        c.toNat = 0x09 ∨ c.toNat = 0x0a ∨ c.toNat = 0x0d := by
  refine ⟨le_trans (length_clean_message_le _) (validate_message_length _ hv).2, ?_⟩
  intro c hc hr
  exact not_control_class c (mem_clean_message_not_control _ c hc) hr

theorem c2_normalize_bounds_witness :
    validate_message (receiverDecode [0x48, 0x69]) = true ∧
    (clean_message (receiverDecode [0x48, 0x69])).length ≤ MAX_MESSAGE_LENGTH :=
  ⟨by decide, (c2_normalize_bounds [0x48, 0x69] (by decide)).1⟩

/-! ## Claim C3 -/

/-- C3: `broadcast_message` never raises to its caller — every sink
invocation is wrapped in its own `try/except` (modelled by the fault flags:
the function is total for every fault environment) — and a failure of any
one sink does not prevent the others: for every fault environment `f`, in
particular with `f.speechFault` and `f.displayFault` arbitrary (speech
failing or timing out), an enabled, non-failing console sink and file sink
each still receive the cleaned message. -/
theorem c3_sink_isolation (cfg : SinkConfig) (f : Faults) (ts message : List Char)
    (sender : Option (List Char)) (st : BState)
    (hm : message ≠ []) (hv : validate_message message = true)
    (hc : cfg.enableConsole = true) (hcf : f.consoleFault = false)
    (hfe : cfg.enableFile = true) (hff : f.fileFault = false) :
    (broadcast_message cfg f ts message sender st).consoleOut =
      st.consoleOut ++ [clean_message message] ∧
    (broadcast_message cfg f ts message sender st).messageLog =
      st.messageLog ++
        [format_message_for_log ts (clean_message message) sender "MESSAGE".toList] := by
  constructor
  · rw [broadcast_message_consoleOut cfg f ts message sender st hm hv, hc, hcf]
    rfl
  · rw [broadcast_message_messageLog cfg f ts message sender st hm hv, hfe, hff]
    rfl

theorem c3_sink_isolation_witness :
    (broadcast_message cfgAll speechFailing [] "Hi".toList none emptyBState).consoleOut =
      emptyBState.consoleOut ++ [clean_message "Hi".toList] ∧
    (broadcast_message cfgAll speechFailing [] "Hi".toList none emptyBState).messageLog =
      emptyBState.messageLog ++
        [format_message_for_log [] (clean_message "Hi".toList) none "MESSAGE".toList] :=
  c3_sink_isolation cfgAll speechFailing [] "Hi".toList none emptyBState
    (by decide) (by decide) rfl rfl rfl rfl

/-! ## Claim C4 -/

/-- C4, as stated, is false on the code: `broadcast_system_event` never
consults the running flag, so calling it after `stop()` (running flag false,
`SERVICE_STOPPED` already emitted) still prints to the console and appends
one line to the system-event log — it is not a no-op. -/
theorem c4_counterexample :
    (stop cfgAll [] runningRState).is_running = false ∧
    (broadcast_system_event cfgAll [] "WAITING_CONNECTION".toList none
        (stop cfgAll [] runningRState).bstate).systemLog.length =
      (stop cfgAll [] runningRState).bstate.systemLog.length + 1 ∧
    (broadcast_system_event cfgAll [] "WAITING_CONNECTION".toList none
        (stop cfgAll [] runningRState).bstate).consoleOut.length =
      (stop cfgAll [] runningRState).bstate.consoleOut.length + 1 := by decide

/-- C4 (amended): calling `broadcast_system_event` after shutdown raises no
exception (its body is one big `try/except`, and the model is total), but it
behaves exactly as before shutdown: with console output and file logging
enabled it produces one console line and grows the system-event log by one
line, because it never reads the running flag. -/
theorem c4_system_event_after_stop (cfg : SinkConfig) (ts ts2 ev : List Char)
    (d : Option (List Char)) (r : RState)
    (hc : cfg.enableConsole = true) (hf : cfg.enableFile = true) :
    (stop cfg ts r).is_running = false ∧
    (broadcast_system_event cfg ts2 ev d (stop cfg ts r).bstate).consoleOut.length =
      (stop cfg ts r).bstate.consoleOut.length + 1 ∧
    (broadcast_system_event cfg ts2 ev d (stop cfg ts r).bstate).systemLog.length =
      (stop cfg ts r).bstate.systemLog.length + 1 := by
  refine ⟨rfl, ?_, ?_⟩ <;> simp [broadcast_system_event, hc, hf]

theorem c4_system_event_after_stop_witness :
    (stop cfgAll [] runningRState).is_running = false ∧
    (broadcast_system_event cfgAll [] "CONNECTION_CLOSED".toList none
        (stop cfgAll [] runningRState).bstate).consoleOut.length =
      (stop cfgAll [] runningRState).bstate.consoleOut.length + 1 ∧
    (broadcast_system_event cfgAll [] "CONNECTION_CLOSED".toList none
        (stop cfgAll [] runningRState).bstate).systemLog.length =
      (stop cfgAll [] runningRState).bstate.systemLog.length + 1 :=
  c4_system_event_after_stop cfgAll [] [] "CONNECTION_CLOSED".toList none runningRState
    rfl rfl

/-! ## Claim C5 -/

/-- C5, as stated, is false on the code: a second `stop()` on an
already-stopped receiver leaves the flag and socket state unchanged, but it
runs the whole body again and in particular emits the `SERVICE_STOPPED`
system event again — the system log grows by one more line and another
console line is printed, so it is not a no-op. -/
theorem c5_counterexample :
    (stop cfgAll [] runningRState).is_running = false ∧
    (stop cfgAll [] (stop cfgAll [] runningRState)).bstate.systemLog.length =
      (stop cfgAll [] runningRState).bstate.systemLog.length + 1 ∧
    (stop cfgAll [] (stop cfgAll [] runningRState)).bstate.consoleOut.length =
      (stop cfgAll [] runningRState).bstate.consoleOut.length + 1 := by decide

/-- C5 (amended): `stop` is idempotent on the running flag and the socket
state — a second call changes none of them and raises nothing (close errors
are swallowed) — but it is not a full no-op: every call re-emits the
`SERVICE_STOPPED` event, adding one console line and one system-log line
whenever those sinks are enabled. -/
theorem c5_stop_reemits (cfg : SinkConfig) (ts ts2 : List Char) (r : RState) :
    (stop cfg ts2 (stop cfg ts r)).is_running = (stop cfg ts r).is_running ∧
    (stop cfg ts2 (stop cfg ts r)).serverOpen = (stop cfg ts r).serverOpen ∧
    (stop cfg ts2 (stop cfg ts r)).clientOpen = (stop cfg ts r).clientOpen ∧
    (stop cfg ts2 (stop cfg ts r)).bstate.consoleOut.length =
      (stop cfg ts r).bstate.consoleOut.length + (if cfg.enableConsole then 1 else 0) ∧
    (stop cfg ts2 (stop cfg ts r)).bstate.systemLog.length =
      (stop cfg ts r).bstate.systemLog.length + (if cfg.enableFile then 1 else 0) := by
  refine ⟨rfl, rfl, rfl, ?_, ?_⟩ <;>
    cases hc : cfg.enableConsole <;> cases hf : cfg.enableFile <;>
      simp [stop, broadcast_system_event, hc, hf]

/-! ## Claim C6 -/

/-- C6: in every reachable state of the accept-and-session loop the session
map `connected_devices` holds at most one entry; when the session's read
loop exits — peer disconnect, transport error or shutdown — the entry is
gone (the map is empty); and a fresh connection accepted while the loop is
running registers the new session with a message counter of zero. -/
theorem c6_single_session (s : SysState) (h : Reachable s) :
    s.devices.length ≤ 1 ∧
    (∀ a, s.phase = .inSession a →
      (step s .disconnect).devices = [] ∧
      (step s .sessionError).devices = [] ∧
      (step s .shutdown).devices = []) ∧
    (∀ a, s.phase = .accepting → s.running = true →
      (step s (.connect a)).devices = [(a, 0)]) := by
  have hinv := reachable_sessionInv s h
  rcases s with ⟨run, ph, dev, evs, sl, el⟩
  cases ph with
  | accepting =>
    simp only [SessionInv] at hinv
    subst hinv
    refine ⟨by simp, ?_, ?_⟩
    · intro a ha
      simp at ha
    · intro a _ hrun
      change run = true at hrun
      subst hrun
      simp [step]
  | inSession a0 =>
    simp only [SessionInv] at hinv
    obtain ⟨n, rfl⟩ := hinv
    refine ⟨by simp, ?_, ?_⟩
    · intro a ha
      change Phase.inSession a0 = Phase.inSession a at ha
      cases ha
      refine ⟨?_, ?_, ?_⟩ <;> simp [step, sessionCleanup, stopSys]
    · intro a ha
      simp at ha
  | stopped =>
    simp only [SessionInv] at hinv
    subst hinv
    refine ⟨by simp, ?_, ?_⟩ <;> intro a ha <;> simp at ha

theorem c6_single_session_witness :
    (step initSysState (.connect ['a'])).devices.length ≤ 1 ∧
    (step (step initSysState (.connect ['a'])) .disconnect).devices = [] ∧
    (step initSysState (.connect ['a'])).devices = [(['a'], 0)] := by
  have h1 := c6_single_session (step initSysState (.connect ['a']))
    (Reachable.step initSysState (.connect ['a']) Reachable.init)
  have h0 := c6_single_session initSysState Reachable.init
  exact ⟨h1.1, (h1.2.1 ['a'] (by decide)).1, h0.2.2 ['a'] rfl rfl⟩

/-! ## Claim C7 -/

/-- C7: on the input bytes `b"Hello\x00World\n"` the pipeline decodes to the
string `"Hello\x00World"` (the trailing newline is trimmed by the receiver's
`strip`), this raw string passes validation, and cleaning strips the
embedded NUL to produce exactly `"HelloWorld"`. -/
theorem c7_scenario1 :
    receiverDecode [0x48, 0x65, 0x6c, 0x6c, 0x6f, 0x00, 0x57, 0x6f, 0x72, 0x6c, 0x64, 0x0a]
      = "Hello\x00World".toList ∧
    validate_message
      (receiverDecode [0x48, 0x65, 0x6c, 0x6c, 0x6f, 0x00, 0x57, 0x6f, 0x72, 0x6c, 0x64, 0x0a])
      = true ∧
    clean_message
      (receiverDecode [0x48, 0x65, 0x6c, 0x6c, 0x6f, 0x00, 0x57, 0x6f, 0x72, 0x6c, 0x64, 0x0a])
      = "HelloWorld".toList := by decide

/-! ## Claim C8 -/

/-- C8, as stated, is false on the code: a transport error during a session
is caught and logged inside `_handle_client` (the error counter grows), the
session is closed and the loop returns directly to accepting — but no
5-second delay happens (`sleeps` stays empty): `time.sleep(5)` runs only in
`_start_server`'s own handlers, which such an error never reaches. -/
theorem c8_counterexample :
    (step initSysState (Ev.connect ['a'])).phase = Phase.inSession ['a'] ∧
    (step (step initSysState (Ev.connect ['a'])) Ev.sessionError).running = true ∧
    (step (step initSysState (Ev.connect ['a'])) Ev.sessionError).phase = Phase.accepting ∧
    (step (step initSysState (Ev.connect ['a'])) Ev.sessionError).errLogs = 1 ∧
    (step (step initSysState (Ev.connect ['a'])) Ev.sessionError).sleeps = [] := by decide

/-- C8 (amended): while the running flag is true, a transport error raised
while ACCEPTING is caught and logged, followed by the fixed 5-second delay,
and the loop accepts again; a transport error during a session is caught and
logged in the session handler and the loop returns to accepting immediately,
with no delay.  In both cases the loop keeps running, and there is no
maximum retry count: any number of consecutive accept errors leaves the loop
accepting with one 5-second sleep per error (`MAX_RECONNECT_ATTEMPTS` is
never consulted). -/
theorem c8_retry_policy (s : SysState) (hrun : s.running = true) :
    (s.phase = .accepting →
      (step s .acceptError).running = true ∧
      (step s .acceptError).phase = .accepting ∧
      (step s .acceptError).errLogs = s.errLogs + 1 ∧
      (step s .acceptError).sleeps = s.sleeps ++ [5]) ∧
    (∀ a, s.phase = .inSession a →
      (step s .sessionError).running = true ∧
      (step s .sessionError).phase = .accepting ∧
      (step s .sessionError).errLogs = s.errLogs + 1 ∧
      (step s .sessionError).sleeps = s.sleeps) ∧
    (s.phase = .accepting → ∀ n,
      (acceptErrIter n s).running = true ∧
      (acceptErrIter n s).phase = .accepting ∧
      (acceptErrIter n s).sleeps = s.sleeps ++ List.replicate n 5) := by
  rcases s with ⟨run, ph, dev, evs, sl, el⟩
  change run = true at hrun
  subst hrun
  refine ⟨?_, ?_, ?_⟩
  · intro hph
    change ph = Phase.accepting at hph
    subst hph
    simp [step]
  · intro a hph
    change ph = Phase.inSession a at hph
    subst hph
    simp [step, sessionCleanup]
  · intro hph n
    change ph = Phase.accepting at hph
    subst hph
    rw [acceptErrIter_spec]
    exact ⟨rfl, rfl, rfl⟩

theorem c8_retry_policy_witness :
    (step initSysState Ev.acceptError).phase = Phase.accepting ∧
    (step initSysState Ev.acceptError).sleeps = initSysState.sleeps ++ [5] ∧
    (acceptErrIter 3 initSysState).phase = Phase.accepting ∧
    (acceptErrIter 3 initSysState).sleeps = initSysState.sleeps ++ List.replicate 3 5 := by
  have h := c8_retry_policy initSysState rfl
  exact ⟨(h.1 rfl).2.1, (h.1 rfl).2.2.2, (h.2.2 rfl 3).2.1, (h.2.2 rfl 3).2.2⟩

/-! ## Claim C9 -/

/-- C9: `broadcast_system_event` writes only to the console and the
system-event log file: for every event kind, detail, configuration and
state, the speech record, the desktop-notification record, the speech
in-flight flag and the message log file are all left unchanged. -/
theorem c9_system_event_frame (cfg : SinkConfig) (ts ev : List Char)
    (d : Option (List Char)) (st : BState) :
    (broadcast_system_event cfg ts ev d st).spoken = st.spoken ∧
    (broadcast_system_event cfg ts ev d st).notified = st.notified ∧
    (broadcast_system_event cfg ts ev d st).isAudioPlaying = st.isAudioPlaying ∧
    (broadcast_system_event cfg ts ev d st).messageLog = st.messageLog := by
  unfold broadcast_system_event
  cases hc : cfg.enableConsole <;> cases hf : cfg.enableFile <;> simp [hc, hf]

/-! ## Claim C10 -/

/-- C10: `clean_message` is idempotent — after control characters are
removed and surrounding whitespace is trimmed, a second application removes
nothing further. -/
theorem c10_clean_message_idem (m : List Char) :
    clean_message (clean_message m) = clean_message m := by
  by_cases hm : m = []
  · subst hm
    rfl
  · by_cases hy : clean_message m = []
    · rw [hy]
      rfl
    · have hfix : (clean_message m).filter (fun c => !isStrippedControl c) = clean_message m :=
        List.filter_eq_self.mpr (fun c hc => by
          have hnc := mem_clean_message_not_control m c hc
          simp [hnc])
      calc clean_message (clean_message m)
          = pyStrip ((clean_message m).filter (fun c => !isStrippedControl c)) :=
            clean_message_ne_nil _ hy
        _ = pyStrip (clean_message m) := by rw [hfix]
        _ = clean_message m := by rw [clean_message_ne_nil m hm, pyStrip_idem]

end RbPiBt
